import Mathlib

/-!
Verification development for the OpenAI client wrapper of this repository.

The definitions below are a shallow embedding of the TypeScript source:

* `parseDuration` and its helpers model the function `parseDuration` of the
  client module, including the JavaScript regular-expression scan
  `duration.match(/(\d{1,5}(h|ms|m|s))/g)` (greedy digit quantifier with
  backtracking, alternation tried left to right, global non-overlapping scan)
  and the `reduce` that folds the matched parts into a units record handed to
  `moment.duration`.
* `updatePools` models the private method `OpenAIClient.updatePools`; pool
  fields and timers are explicit state, `console.log` warnings guarded by the
  debug flag are collected in a list, and the `throw new Error(...)` branches
  become `Except.error`.
* `parseError` models `OpenAIClient.parseError`.
* `createChatCompletionCost` models the estimated-token cost that
  `OpenAIClient.createChatCompletion` passes to `enqueue`, with the external
  token counter and JSON serialization abstracted as function parameters.

JavaScript numbers that can be NaN are modelled as `Option Int` (`none` = NaN);
strings are Lean strings (the inputs of interest are ASCII).
-/

/-- ASCII decimal value of a digit string, as computed by JS parseInt on an
all-digit input. -/
def digitsToNat (l : List Char) : Nat :=
  l.foldl (fun a c => 10 * a + (c.toNat - 48)) 0

/-- Whitespace skipped by JS parseInt (the ASCII cases). -/
def jsIsSpace (c : Char) : Bool :=
  c = ' ' || c = '\t' || c = '\n' || c = '\r'

/-- Model of JavaScript parseInt(s, 10): skip leading whitespace, optional
sign, then the longest digit prefix; NaN (here none) if there are no digits. -/
def jsParseInt (s : String) : Option Int :=
  match s.data.dropWhile jsIsSpace with
  | [] => none
  | c :: t =>
    if c = '-' then
      let ds := t.takeWhile Char.isDigit
      if ds.isEmpty then none else some (-(digitsToNat ds : Int))
    else if c = '+' then
      let ds := t.takeWhile Char.isDigit
      if ds.isEmpty then none else some ((digitsToNat ds : Int))
    else
      let ds := (c :: t).takeWhile Char.isDigit
      if ds.isEmpty then none else some ((digitsToNat ds : Int))

/-- A moment.js duration, reduced to what the client observes: its total
milliseconds and its validity flag. -/
structure Duration where
  ms : Int
  valid : Bool
deriving DecidableEq

/-- moment.duration(0): the zero duration, which is valid. -/
def zeroDuration : Duration := { ms := 0, valid := true }

/-- The unit alternation (h|ms|m|s) of the scanning regex, tried left to
right exactly as the regex engine does: h, then ms, then m, then s. -/
def matchUnit : List Char → Option (String × List Char)
  | [] => none
  | c :: t =>
    if c = 'h' then some ("h", t)
    else if c = 'm' then
      match t with
      | 's' :: t2 => some ("ms", t2)
      | _ => some ("m", t)
    else if c = 's' then some ("s", t)
    else none

/-- Greedy consumption of the quantifier \d{1,5}: take up to n leading digits
(accumulated in reverse on acc), stopping at the first non-digit. -/
def grabDigits : Nat → List Char → List Char → List Char × List Char
  | 0, acc, l => (acc, l)
  | _ + 1, acc, [] => (acc, [])
  | n + 1, acc, c :: t => if c.isDigit then grabDigits n (c :: acc) t else (acc, c :: t)

/-- Backtracking step of the regex engine: try the unit alternation after the
greedily consumed digits (given in reverse); on failure give one digit back
and retry, failing once no consumed digit is left (the quantifier needs at
least one). On success, return the digits (in order), the unit, and the rest
of the input. -/
def backtrack : List Char → List Char → Option ((List Char × String) × List Char)
  | [], _ => none
  | d :: rds, rest =>
    match matchUnit rest with
    | some (u, r) => some (((d :: rds).reverse, u), r)
    | none => backtrack rds (d :: rest)

/-- One anchored attempt of the regex (\d{1,5})(h|ms|m|s) at the head of the
input: greedy digits then the unit alternation with backtracking. -/
def tryMatchAt (l : List Char) : Option ((List Char × String) × List Char) :=
  let p := grabDigits 5 [] l
  backtrack p.1 p.2

/-- The global regex scan: attempt a match at each successive position,
emitting the full matched token (digits then unit) and resuming after it.
The fuel argument is bounded by the input length, which suffices because
every step consumes at least one character. -/
def scanGo : Nat → List Char → List (List Char)
  | 0, _ => []
  | _ + 1, [] => []
  | fuel + 1, c :: t =>
    match tryMatchAt (c :: t) with
    | some ((ds, u), rest) => (ds ++ u.data) :: scanGo fuel rest
    | none => scanGo fuel t

/-- duration.match(/(\d{1,5}(h|ms|m|s))/g): the list of all matched tokens
(the empty list plays the role of the null result). -/
def scanMatches (l : List Char) : List (List Char) := scanGo l.length l

/-- part.match(/(\d{1,5})(h|ms|m|s)/) without the g flag: the first match in
the part, as the (digits, unit) capture pair. -/
def firstMatch : List Char → Option (List Char × String)
  | [] => none
  | c :: t =>
    match tryMatchAt (c :: t) with
    | some ((ds, u), _) => some (ds, u)
    | none => firstMatch t

/-- The units record accumulated by the reduce; absent fields are omitted
keys of the JS object. -/
structure DurationUnits where
  hours : Option Int := none
  minutes : Option Int := none
  seconds : Option Int := none
  milliseconds : Option Int := none
deriving DecidableEq

/-- The unit-name lookup table of the source. -/
def unitName (u : String) : Option String :=
  if u = "s" then some "seconds"
  else if u = "m" then some "minutes"
  else if u = "h" then some "hours"
  else if u = "ms" then some "milliseconds"
  else none

/-- acc[unit] = num: overwrite the named field of the units record. -/
def setUnit (acc : DurationUnits) (name : String) (v : Int) : DurationUnits :=
  if name = "seconds" then { acc with seconds := some v }
  else if name = "minutes" then { acc with minutes := some v }
  else if name = "hours" then { acc with hours := some v }
  else if name = "milliseconds" then { acc with milliseconds := some v }
  else acc

/-- One step of parts.reduce: re-match the part, parse its integer, look up
the unit name, and overwrite the record field; every failure skips the part
(after a logged warning, which the claims do not concern). -/
def reduceStep (acc : DurationUnits) (part : List Char) : DurationUnits :=
  match firstMatch part with
  | none => acc
  | some (ds, u) =>
    match jsParseInt (String.mk ds) with
    | none => acc
    | some num =>
      match unitName u with
      | none => acc
      | some nm => setUnit acc nm num

/-- parts.reduce((acc, part) => ..., \x7b\x7d). -/
def reduceUnits (parts : List (List Char)) : DurationUnits :=
  parts.foldl reduceStep {}

/-- moment.duration(units) for a record of plain integers: valid, with the
total milliseconds given by the usual unit weights. -/
def durationOfUnits (u : DurationUnits) : Duration :=
  { ms := u.hours.getD 0 * 3600000 + u.minutes.getD 0 * 60000
        + u.seconds.getD 0 * 1000 + u.milliseconds.getD 0
    valid := true }

/-- Model of the exported parseDuration of the client module. -/
def parseDuration (s : String) : Duration :=
  if s.length > 64 then zeroDuration
  else
    let lower := s.data.map Char.toLower
    let parts := scanMatches lower
    if parts.isEmpty then zeroDuration
    else durationOfUnits (reduceUnits parts)

/-- Headers of a fetch response, as the name-to-value lookup the source
consults via has and get (get yields null for an absent name). -/
abbrev HeadersT := String → Option String

/-- headers.has(name). -/
def headerHas (h : HeadersT) (name : String) : Bool :=
  (h name).isSome

/-- headers.get(name) || dflt: the JS or-else also replaces an empty string,
which is falsy. -/
def headerGetOr (h : HeadersT) (name dflt : String) : String :=
  match h name with
  | some v => if v = "" then dflt else v
  | none => dflt

/-- The pool and timer state of the client that updatePools reads and
writes. Pool counters are JS numbers (none = NaN); a timer is the delay in
milliseconds of the pending setTimeout, or none after clearTimeout. -/
structure ClientState where
  requestPoolMax : Option Int
  requestPool : Option Int
  tokenPoolMax : Option Int
  tokenPool : Option Int
  requestTimer : Option Int
  tokenTimer : Option Int
deriving DecidableEq

/-- The console.log warning emitted for an over-threshold request reset. -/
def reqResetWarning : String :=
  "WARNING: request reset time is greater than 10 seconds"

/-- The console.log warning emitted for an over-threshold token reset. -/
def tokResetWarning : String :=
  "WARNING: token reset time is greater than 10 seconds"

/-- First header block of updatePools: overwrite requestPoolMax exactly when
x-ratelimit-limit-requests is present. -/
def updLimitRequests (h : HeadersT) (st : ClientState) : ClientState :=
  if headerHas h "x-ratelimit-limit-requests" then
    { st with requestPoolMax := jsParseInt (headerGetOr h "x-ratelimit-limit-requests" "0") }
  else st

/-- Second header block: overwrite requestPool exactly when
x-ratelimit-remaining-requests is present. -/
def updRemainingRequests (h : HeadersT) (st : ClientState) : ClientState :=
  if headerHas h "x-ratelimit-remaining-requests" then
    { st with requestPool := jsParseInt (headerGetOr h "x-ratelimit-remaining-requests" "0") }
  else st

/-- Third header block: overwrite tokenPoolMax exactly when
x-ratelimit-limit-tokens is present. -/
def updLimitTokens (h : HeadersT) (st : ClientState) : ClientState :=
  if headerHas h "x-ratelimit-limit-tokens" then
    { st with tokenPoolMax := jsParseInt (headerGetOr h "x-ratelimit-limit-tokens" "0") }
  else st

/-- Fourth header block: overwrite tokenPool exactly when
x-ratelimit-remaining-tokens is present. -/
def updRemainingTokens (h : HeadersT) (st : ClientState) : ClientState :=
  if headerHas h "x-ratelimit-remaining-tokens" then
    { st with tokenPool := jsParseInt (headerGetOr h "x-ratelimit-remaining-tokens" "0") }
  else st

/-- The four leading header blocks of updatePools, in source order. -/
def applyPoolHeaders (h : HeadersT) (st : ClientState) : ClientState :=
  updRemainingTokens h (updLimitTokens h (updRemainingRequests h (updLimitRequests h st)))

/-- The x-ratelimit-reset-requests block of updatePools: clear the timer,
parse the duration, throw if it is invalid, otherwise schedule the reset
timer with the parsed delay and log the over-10-seconds warning when the
debug flag is set. -/
def applyRequestReset (h : HeadersT) (debug : Bool) (st : ClientState) :
    Except String (ClientState × List String) :=
  if headerHas h "x-ratelimit-reset-requests" then
    let cleared := { st with requestTimer := none }
    let timeToReset := parseDuration (headerGetOr h "x-ratelimit-reset-requests" "0s")
    if timeToReset.valid = false then
      Except.error "Time to reset requests does not have a valid format"
    else
      Except.ok ({ cleared with requestTimer := some timeToReset.ms },
        if timeToReset.ms > 10000 && debug then [reqResetWarning] else [])
  else Except.ok (st, [])

/-- The x-ratelimit-reset-tokens block of updatePools, symmetric to the
request block. -/
def applyTokenReset (h : HeadersT) (debug : Bool) (st : ClientState) :
    Except String (ClientState × List String) :=
  if headerHas h "x-ratelimit-reset-tokens" then
    let cleared := { st with tokenTimer := none }
    let timeToReset := parseDuration (headerGetOr h "x-ratelimit-reset-tokens" "0s")
    if timeToReset.valid = false then
      Except.error "Time to reset tokens does not have a valid format"
    else
      Except.ok ({ cleared with tokenTimer := some timeToReset.ms },
        if timeToReset.ms > 10000 && debug then [tokResetWarning] else [])
  else Except.ok (st, [])

/-- Model of OpenAIClient.updatePools: the header blocks in source order;
an error is a thrown exception, an ok result carries the new state and the
emitted warnings. -/
def updatePools (h : HeadersT) (debug : Bool) (st : ClientState) :
    Except String (ClientState × List String) :=
  match applyRequestReset h debug (applyPoolHeaders h st) with
  | Except.error e => Except.error e
  | Except.ok (st1, w1) =>
    match applyTokenReset h debug st1 with
    | Except.error e => Except.error e
    | Except.ok (st2, w2) => Except.ok (st2, w1 ++ w2)

/-- The abstract rejection taxonomy of the base client. -/
inductive RejectionReason where
  | BAD_REQUEST
  | TOO_MANY_REQUESTS
  | INSUFFICIENT_QUOTA
  | SERVER_ERROR
  | UNKNOWN
deriving DecidableEq

/-- The nested error object of an OpenAI API error. -/
structure NestedError where
  code : Option String
deriving DecidableEq

/-- The error shape inspected by OpenAIClient.parseError: a status that may
be absent or non-numeric (none), and an optional nested error object. -/
structure APIError where
  status : Option Int
  error : Option NestedError
deriving DecidableEq

/-- Model of OpenAIClient.parseError: the switch on error.status, with the
429 case distinguishing insufficient_quota via error.error.code. -/
def parseError (e : APIError) : RejectionReason :=
  if e.status = some 400 then RejectionReason.BAD_REQUEST
  else if e.status = some 429 then
    match e.error with
    | some inner =>
      if inner.code = some "insufficient_quota" then RejectionReason.INSUFFICIENT_QUOTA
      else RejectionReason.TOO_MANY_REQUESTS
    | none => RejectionReason.TOO_MANY_REQUESTS
  else if e.status = some 500 then RejectionReason.SERVER_ERROR
  else RejectionReason.UNKNOWN

/-- The model card fields that createChatCompletion consults; supportsImages
is an optional boolean tested for truthiness. -/
structure ModelCard where
  checkpoint : String
  supportsImages : Option Bool
deriving DecidableEq

/-- JS truthiness of an optional boolean field. -/
def isTruthy (b : Option Bool) : Bool :=
  match b with
  | some true => true
  | _ => false

/-- ModelInvocationOptions of the common module; tools, response_format and
temperature are opaque payloads here. -/
structure ModelInvocationOptions (Temp Tool Fmt : Type) where
  tools : Option Tool
  response_format : Option Fmt
  temperature : Temp
  max_tokens : Option Nat

/-- The sagentic ChatCompletionRequest of the common module. -/
structure ChatCompletionRequest (Msg Temp Tool Fmt : Type) where
  options : Option (ModelInvocationOptions Temp Tool Fmt)
  model : String
  messages : List Msg

/-- The OpenAI wire request assembled by createChatCompletion. -/
structure OpenAIChatRequest (Msg Temp Tool Fmt : Type) where
  model : String
  temperature : Option Temp
  max_tokens : Option Nat
  tools : Option Tool
  response_format : Option Fmt
  messages : List Msg

/-- The openaiRequest literal built at the top of createChatCompletion. -/
def buildOpenAIRequest {Msg Temp Tool Fmt : Type} (card : ModelCard)
    (request : ChatCompletionRequest Msg Temp Tool Fmt) :
    OpenAIChatRequest Msg Temp Tool Fmt :=
  { model := card.checkpoint
    temperature := request.options.map ModelInvocationOptions.temperature
    max_tokens := request.options.bind ModelInvocationOptions.max_tokens
    tools := request.options.bind ModelInvocationOptions.tools
    response_format := request.options.bind ModelInvocationOptions.response_format
    messages := request.messages }

/-- Model of estimateTokens: countTokens(JSON.stringify(request.messages)),
with the external token counter and the JSON serializer of a message array
abstracted as function parameters. -/
def estimateTokens {Msg Temp Tool Fmt : Type} (countTokens : String → Nat)
    (stringifyMessages : List Msg → String)
    (request : OpenAIChatRequest Msg Temp Tool Fmt) : Nat :=
  countTokens (stringifyMessages request.messages)

/-- The estimated token cost createChatCompletion passes to enqueue: the
constant 1000 when the model card supports images, otherwise estimateTokens
of the assembled openaiRequest. -/
def createChatCompletionCost {Msg Temp Tool Fmt : Type} (countTokens : String → Nat)
    (stringifyMessages : List Msg → String) (card : ModelCard)
    (request : ChatCompletionRequest Msg Temp Tool Fmt) : Nat :=
  let openaiRequest := buildOpenAIRequest card request
  if isTruthy card.supportsImages then 1000
  else estimateTokens countTokens stringifyMessages openaiRequest

/-- Projection of the units record by the field name used in the reduce,
for stating which occurrence of a unit determines the result. -/
def unitField (nm : String) (acc : DurationUnits) : Option Int :=
  if nm = "seconds" then acc.seconds
  else if nm = "minutes" then acc.minutes
  else if nm = "hours" then acc.hours
  else if nm = "milliseconds" then acc.milliseconds
  else none

/-- Millisecond weight of a matched unit, for stating the value of a
single-token parse. -/
def unitMillis (u : String) : Int :=
  if u = "h" then 3600000
  else if u = "m" then 60000
  else if u = "s" then 1000
  else if u = "ms" then 1
  else 0

/-- Test fixture: the client state with every pool counter and timer unset. -/
def stEmpty : ClientState := ⟨none, none, none, none, none, none⟩

/-- Test fixture: a header set carrying only x-ratelimit-reset-requests set
to 20s. -/
def hdrReqReset20 : HeadersT :=
  fun n => if n = "x-ratelimit-reset-requests" then some "20s" else none

/-- Test fixture: a header set carrying both reset headers set to 20s. -/
def hdrBothResets20 : HeadersT :=
  fun n =>
    if n = "x-ratelimit-reset-requests" then some "20s"
    else if n = "x-ratelimit-reset-tokens" then some "20s"
    else none

lemma parseDuration_isValid (s : String) : (parseDuration s).valid = true := by
  unfold parseDuration
  simp only [apply_ite (Duration.valid), zeroDuration, durationOfUnits, ite_self]

lemma parseDuration_of_noMatch (s : String)
    (hm : scanMatches (s.data.map Char.toLower) = []) :
    parseDuration s = zeroDuration := by
  unfold parseDuration
  split
  · rfl
  · simp [hm]

lemma parseDuration_of_long (s : String) (hl : 64 < s.length) :
    parseDuration s = zeroDuration := by
  unfold parseDuration
  simp [hl]

lemma applyRequestReset_eq (h : HeadersT) (d : Bool) (st : ClientState) :
    applyRequestReset h d st =
      if headerHas h "x-ratelimit-reset-requests" then
        Except.ok
          ({ st with
              requestTimer := some (parseDuration (headerGetOr h "x-ratelimit-reset-requests" "0s")).ms },
           if (parseDuration (headerGetOr h "x-ratelimit-reset-requests" "0s")).ms > 10000 && d
           then [reqResetWarning] else [])
      else Except.ok (st, []) := by
  unfold applyRequestReset
  simp only [parseDuration_isValid]
  simp

lemma applyTokenReset_eq (h : HeadersT) (d : Bool) (st : ClientState) :
    applyTokenReset h d st =
      if headerHas h "x-ratelimit-reset-tokens" then
        Except.ok
          ({ st with
              tokenTimer := some (parseDuration (headerGetOr h "x-ratelimit-reset-tokens" "0s")).ms },
           if (parseDuration (headerGetOr h "x-ratelimit-reset-tokens" "0s")).ms > 10000 && d
           then [tokResetWarning] else [])
      else Except.ok (st, []) := by
  unfold applyTokenReset
  simp only [parseDuration_isValid]
  simp

lemma updatePools_exists (h : HeadersT) (d : Bool) (st : ClientState) :
    ∃ p, updatePools h d st = Except.ok p := by
  unfold updatePools
  rw [applyRequestReset_eq]
  by_cases h1 : headerHas h "x-ratelimit-reset-requests" <;>
    by_cases h2 : headerHas h "x-ratelimit-reset-tokens" <;>
    simp [h1, h2, applyTokenReset_eq]

/-- C1: for every header set, state, and debug flag, updatePools returns
normally (never throws): every duration produced by parseDuration is valid,
so the two invalid-format error branches of updatePools are unreachable. -/
theorem claim_C1 :
    (∀ s : String, (parseDuration s).valid = true) ∧
    (∀ (h : HeadersT) (debug : Bool) (st : ClientState),
      ∃ p, updatePools h debug st = Except.ok p) :=
  ⟨parseDuration_isValid, updatePools_exists⟩

/-- C2: parseError maps every error to exactly one of the five
RejectionReason values: status 400 to BAD_REQUEST; status 429 to
INSUFFICIENT_QUOTA exactly when the nested error code is
insufficient_quota and to TOO_MANY_REQUESTS otherwise; status 500 to
SERVER_ERROR; every other status to UNKNOWN. -/
theorem claim_C2 (e : APIError) :
    (parseError e = RejectionReason.BAD_REQUEST ∨
     parseError e = RejectionReason.TOO_MANY_REQUESTS ∨
     parseError e = RejectionReason.INSUFFICIENT_QUOTA ∨
     parseError e = RejectionReason.SERVER_ERROR ∨
     parseError e = RejectionReason.UNKNOWN) ∧
    (e.status = some 400 → parseError e = RejectionReason.BAD_REQUEST) ∧
    (e.status = some 429 →
      ((parseError e = RejectionReason.INSUFFICIENT_QUOTA ↔
        (∃ inner, e.error = some inner ∧ inner.code = some "insufficient_quota")) ∧
       (parseError e = RejectionReason.TOO_MANY_REQUESTS ↔
        ¬ (∃ inner, e.error = some inner ∧ inner.code = some "insufficient_quota")))) ∧
    (e.status = some 500 → parseError e = RejectionReason.SERVER_ERROR) ∧
    (e.status ≠ some 400 → e.status ≠ some 429 → e.status ≠ some 500 →
      parseError e = RejectionReason.UNKNOWN) := by
  rcases e with ⟨s, err⟩
  rcases err with _ | ⟨code⟩
  · unfold parseError
    split_ifs <;> simp_all
  · unfold parseError
    by_cases hc : code.code = some "insufficient_quota" <;> split_ifs <;> simp_all

theorem claim_C2_witness :
    parseError ⟨some 429, some ⟨some "insufficient_quota"⟩⟩ =
      RejectionReason.INSUFFICIENT_QUOTA :=
  ((claim_C2 ⟨some 429, some ⟨some "insufficient_quota"⟩⟩).2.2.1 rfl).1.mpr
    ⟨⟨some "insufficient_quota"⟩, rfl, rfl⟩

/-- C3: parseDuration yields 22200000 ms on "6h10m0s0ms", 20200 ms on
"20s200ms", and a zero valid duration (without any exception) on the empty
string and on every input whose regex scan matches no token. -/
theorem claim_C3 :
    parseDuration "6h10m0s0ms" = { ms := 22200000, valid := true } ∧
    parseDuration "20s200ms" = { ms := 20200, valid := true } ∧
    parseDuration "" = { ms := 0, valid := true } ∧
    (∀ s : String, scanMatches (s.data.map Char.toLower) = [] →
      parseDuration s = { ms := 0, valid := true }) :=
  ⟨by decide, by decide, by decide, fun s hm => parseDuration_of_noMatch s hm⟩

theorem claim_C3_witness :
    parseDuration "abc" = { ms := 0, valid := true } :=
  claim_C3.2.2.2 "abc" (by decide)

/-- C4: every input longer than 64 characters, and every input with zero
matched tokens, yields the valid zero duration from parseDuration without
any exception; in particular every 65-character input does. -/
theorem claim_C4 :
    (∀ s : String, 64 < s.length → parseDuration s = { ms := 0, valid := true }) ∧
    (∀ s : String, scanMatches (s.data.map Char.toLower) = [] →
      parseDuration s = { ms := 0, valid := true }) ∧
    (∀ s : String, s.length = 65 → parseDuration s = { ms := 0, valid := true }) :=
  ⟨fun s hl => parseDuration_of_long s hl,
   fun s hm => parseDuration_of_noMatch s hm,
   fun s hl => parseDuration_of_long s (by omega)⟩

theorem claim_C4_witness :
    parseDuration (String.mk (List.replicate 65 'a')) = { ms := 0, valid := true } ∧
    parseDuration "hello" = { ms := 0, valid := true } :=
  ⟨claim_C4.2.2 (String.mk (List.replicate 65 'a')) (by decide),
   claim_C4.2.1 "hello" (by decide)⟩

lemma applyPoolHeaders_spec (h : HeadersT) (st : ClientState) :
    (applyPoolHeaders h st).requestTimer = st.requestTimer ∧
    (applyPoolHeaders h st).tokenTimer = st.tokenTimer ∧
    (headerHas h "x-ratelimit-limit-requests" = false →
      (applyPoolHeaders h st).requestPoolMax = st.requestPoolMax) ∧
    (headerHas h "x-ratelimit-remaining-requests" = false →
      (applyPoolHeaders h st).requestPool = st.requestPool) ∧
    (headerHas h "x-ratelimit-limit-tokens" = false →
      (applyPoolHeaders h st).tokenPoolMax = st.tokenPoolMax) ∧
    (headerHas h "x-ratelimit-remaining-tokens" = false →
      (applyPoolHeaders h st).tokenPool = st.tokenPool) ∧
    ((headerHas h "x-ratelimit-limit-requests" = false ∧
      headerHas h "x-ratelimit-remaining-requests" = false ∧
      headerHas h "x-ratelimit-limit-tokens" = false ∧
      headerHas h "x-ratelimit-remaining-tokens" = false) →
      applyPoolHeaders h st = st) := by
  unfold applyPoolHeaders updLimitRequests updRemainingRequests updLimitTokens updRemainingTokens
  split <;> split <;> split <;> split <;> simp_all

lemma applyRequestReset_frame (h : HeadersT) (d : Bool) (st st' : ClientState)
    (w : List String) (he : applyRequestReset h d st = Except.ok (st', w)) :
    st'.requestPoolMax = st.requestPoolMax ∧
    st'.requestPool = st.requestPool ∧
    st'.tokenPoolMax = st.tokenPoolMax ∧
    st'.tokenPool = st.tokenPool ∧
    st'.tokenTimer = st.tokenTimer ∧
    (headerHas h "x-ratelimit-reset-requests" = false → st' = st ∧ w = []) := by
  rw [applyRequestReset_eq] at he
  split at he <;> simp_all [Except.ok.injEq, Prod.mk.injEq] <;>
    obtain ⟨h1, h2⟩ := he <;> subst h1 <;> simp_all

lemma applyTokenReset_frame (h : HeadersT) (d : Bool) (st st' : ClientState)
    (w : List String) (he : applyTokenReset h d st = Except.ok (st', w)) :
    st'.requestPoolMax = st.requestPoolMax ∧
    st'.requestPool = st.requestPool ∧
    st'.tokenPoolMax = st.tokenPoolMax ∧
    st'.tokenPool = st.tokenPool ∧
    st'.requestTimer = st.requestTimer ∧
    (headerHas h "x-ratelimit-reset-tokens" = false → st' = st ∧ w = []) := by
  rw [applyTokenReset_eq] at he
  split at he <;> simp_all [Except.ok.injEq, Prod.mk.injEq] <;>
    obtain ⟨h1, h2⟩ := he <;> subst h1 <;> simp_all

lemma updatePools_decomp (h : HeadersT) (d : Bool) (st st' : ClientState)
    (ws : List String) (he : updatePools h d st = Except.ok (st', ws)) :
    ∃ st1 w1 w2,
      applyRequestReset h d (applyPoolHeaders h st) = Except.ok (st1, w1) ∧
      applyTokenReset h d st1 = Except.ok (st', w2) ∧ ws = w1 ++ w2 := by
  unfold updatePools at he
  cases hr : applyRequestReset h d (applyPoolHeaders h st) with
  | error e => rw [hr] at he; simp at he
  | ok p =>
    obtain ⟨st1, w1⟩ := p
    rw [hr] at he
    dsimp only at he
    cases ht : applyTokenReset h d st1 with
    | error e => rw [ht] at he; simp at he
    | ok q =>
      obtain ⟨st2, w2⟩ := q
      rw [ht] at he
      dsimp only at he
      simp only [Except.ok.injEq, Prod.mk.injEq] at he
      exact ⟨st1, w1, w2, rfl, by rw [ht, he.1], he.2.symm⟩

/-- C7: updatePools mutates each tracked field only when its header is
present: absent limit, remaining, or reset headers leave the corresponding
pool counter or timer unchanged, and with none of the six rate-limit
headers present the state is unchanged and nothing is logged. -/
theorem claim_C7 (h : HeadersT) (debug : Bool) (st st' : ClientState)
    (ws : List String) (he : updatePools h debug st = Except.ok (st', ws)) :
    (headerHas h "x-ratelimit-limit-requests" = false →
      st'.requestPoolMax = st.requestPoolMax) ∧
    (headerHas h "x-ratelimit-remaining-requests" = false →
      st'.requestPool = st.requestPool) ∧
    (headerHas h "x-ratelimit-reset-requests" = false →
      st'.requestTimer = st.requestTimer) ∧
    (headerHas h "x-ratelimit-limit-tokens" = false →
      st'.tokenPoolMax = st.tokenPoolMax) ∧
    (headerHas h "x-ratelimit-remaining-tokens" = false →
      st'.tokenPool = st.tokenPool) ∧
    (headerHas h "x-ratelimit-reset-tokens" = false →
      st'.tokenTimer = st.tokenTimer) ∧
    ((headerHas h "x-ratelimit-limit-requests" = false ∧
      headerHas h "x-ratelimit-remaining-requests" = false ∧
      headerHas h "x-ratelimit-limit-tokens" = false ∧
      headerHas h "x-ratelimit-remaining-tokens" = false ∧
      headerHas h "x-ratelimit-reset-requests" = false ∧
      headerHas h "x-ratelimit-reset-tokens" = false) →
      st' = st ∧ ws = []) := by
  obtain ⟨st1, w1, w2, hr, ht, hw⟩ := updatePools_decomp h debug st st' ws he
  have hp := applyPoolHeaders_spec h st
  have hf1 := applyRequestReset_frame h debug (applyPoolHeaders h st) st1 w1 hr
  have hf2 := applyTokenReset_frame h debug st1 st' w2 ht
  refine ⟨?_, ?_, ?_, ?_, ?_, ?_, ?_⟩
  · intro hh
    rw [hf2.1, hf1.1, hp.2.2.1 hh]
  · intro hh
    rw [hf2.2.1, hf1.2.1, hp.2.2.2.1 hh]
  · intro hh
    rw [hf2.2.2.2.2.1, (hf1.2.2.2.2.2 hh).1, hp.1]
  · intro hh
    rw [hf2.2.2.1, hf1.2.2.1, hp.2.2.2.2.1 hh]
  · intro hh
    rw [hf2.2.2.2.1, hf1.2.2.2.1, hp.2.2.2.2.2.1 hh]
  · intro hh
    rw [(hf2.2.2.2.2.2 hh).1, hf1.2.2.2.2.1, hp.2.1]
  · rintro ⟨h1, h2, h3, h4, h5, h6⟩
    have hpool : applyPoolHeaders h st = st := hp.2.2.2.2.2.2 ⟨h1, h2, h3, h4⟩
    obtain ⟨e1, e2⟩ := hf1.2.2.2.2.2 h5
    obtain ⟨e3, e4⟩ := hf2.2.2.2.2.2 h6
    refine ⟨by rw [e3, e1, hpool], by rw [hw, e2, e4]; rfl⟩

theorem claim_C7_witness :
    (⟨some 1, some 2, some 3, some 4, some 5, some 6⟩ : ClientState) =
      ⟨some 1, some 2, some 3, some 4, some 5, some 6⟩ ∧ ([] : List String) = [] :=
  (claim_C7 (fun _ => none) true ⟨some 1, some 2, some 3, some 4, some 5, some 6⟩
      ⟨some 1, some 2, some 3, some 4, some 5, some 6⟩ [] rfl).2.2.2.2.2.2
    ⟨rfl, rfl, rfl, rfl, rfl, rfl⟩

lemma applyRequestReset_present (h : HeadersT) (d : Bool) (st st' : ClientState)
    (w : List String) (hh : headerHas h "x-ratelimit-reset-requests" = true)
    (he : applyRequestReset h d st = Except.ok (st', w)) :
    st'.requestTimer =
      some (parseDuration (headerGetOr h "x-ratelimit-reset-requests" "0s")).ms ∧
    w = (if (parseDuration (headerGetOr h "x-ratelimit-reset-requests" "0s")).ms > 10000 && d
         then [reqResetWarning] else []) := by
  rw [applyRequestReset_eq, if_pos hh] at he
  simp only [Except.ok.injEq, Prod.mk.injEq] at he
  exact ⟨by rw [← he.1], he.2.symm⟩

lemma applyTokenReset_present (h : HeadersT) (d : Bool) (st st' : ClientState)
    (w : List String) (hh : headerHas h "x-ratelimit-reset-tokens" = true)
    (he : applyTokenReset h d st = Except.ok (st', w)) :
    st'.tokenTimer =
      some (parseDuration (headerGetOr h "x-ratelimit-reset-tokens" "0s")).ms ∧
    w = (if (parseDuration (headerGetOr h "x-ratelimit-reset-tokens" "0s")).ms > 10000 && d
         then [tokResetWarning] else []) := by
  rw [applyTokenReset_eq, if_pos hh] at he
  simp only [Except.ok.injEq, Prod.mk.injEq] at he
  exact ⟨by rw [← he.1], he.2.symm⟩

lemma applyRequestReset_warnings (h : HeadersT) (d : Bool) (st st' : ClientState)
    (w : List String) (he : applyRequestReset h d st = Except.ok (st', w)) :
    w = [] ∨ w = [reqResetWarning] := by
  rw [applyRequestReset_eq] at he
  split at he <;> simp only [Except.ok.injEq, Prod.mk.injEq] at he
  · rw [← he.2]
    split
    · exact Or.inr rfl
    · exact Or.inl rfl
  · exact Or.inl he.2.symm

lemma applyTokenReset_warnings (h : HeadersT) (d : Bool) (st st' : ClientState)
    (w : List String) (he : applyTokenReset h d st = Except.ok (st', w)) :
    w = [] ∨ w = [tokResetWarning] := by
  rw [applyTokenReset_eq] at he
  split at he <;> simp only [Except.ok.injEq, Prod.mk.injEq] at he
  · rw [← he.2]
    split
    · exact Or.inr rfl
    · exact Or.inl rfl
  · exact Or.inl he.2.symm

/-- C8 counterexample: with the debug flag unset, a reset header parsing to
20000 ms (over the 10000 ms threshold) schedules the timer with the full
20000 ms delay but logs no warning at all, refuting the claim that a
warning is logged whenever the threshold is exceeded. -/
theorem claim_C8_counterexample :
    updatePools hdrReqReset20 false stEmpty =
      Except.ok (⟨none, none, none, none, some 20000, none⟩, []) ∧
    (10000 : Int) < 20000 :=
  ⟨rfl, by decide⟩

/-- C8 (amended): whenever a reset header parses to a duration d strictly
greater than 10000 ms, updatePools schedules that pool's reset timer with
delay exactly d (the duration is not clamped), and the over-threshold
warning is logged if and only if the debug flag is set. -/
theorem claim_C8_amended (h : HeadersT) (debug : Bool) (st st' : ClientState)
    (ws : List String) (he : updatePools h debug st = Except.ok (st', ws)) :
    (∀ d : Int,
      headerHas h "x-ratelimit-reset-requests" = true →
      (parseDuration (headerGetOr h "x-ratelimit-reset-requests" "0s")).ms = d →
      10000 < d →
      st'.requestTimer = some d ∧ (reqResetWarning ∈ ws ↔ debug = true)) ∧
    (∀ d : Int,
      headerHas h "x-ratelimit-reset-tokens" = true →
      (parseDuration (headerGetOr h "x-ratelimit-reset-tokens" "0s")).ms = d →
      10000 < d →
      st'.tokenTimer = some d ∧ (tokResetWarning ∈ ws ↔ debug = true)) := by
  obtain ⟨st1, w1, w2, hr, ht, hw⟩ := updatePools_decomp h debug st st' ws he
  have hf2 := applyTokenReset_frame h debug st1 st' w2 ht
  constructor
  · intro d hh hd hlt
    obtain ⟨hset, hwty⟩ :=
      applyRequestReset_present h debug (applyPoolHeaders h st) st1 w1 hh hr
    have hw1 : w1 = if debug then [reqResetWarning] else [] := by
      rw [hwty, hd]
      simp [hlt]
    refine ⟨by rw [hf2.2.2.2.2.1, hset, hd], ?_⟩
    have hw2 := applyTokenReset_warnings h debug st1 st' w2 ht
    rw [hw, hw1]
    rcases hw2 with h2 | h2 <;> rw [h2] <;> cases debug <;>
      simp [reqResetWarning, tokResetWarning]
  · intro d hh hd hlt
    obtain ⟨hset, hwty⟩ := applyTokenReset_present h debug st1 st' w2 hh ht
    have hw2 : w2 = if debug then [tokResetWarning] else [] := by
      rw [hwty, hd]
      simp [hlt]
    refine ⟨by rw [hset, hd], ?_⟩
    have hw1 := applyRequestReset_warnings h debug (applyPoolHeaders h st) st1 w1 hr
    rw [hw, hw2]
    rcases hw1 with h1 | h1 <;> rw [h1] <;> cases debug <;>
      simp [reqResetWarning, tokResetWarning]

theorem claim_C8_witness :
    (⟨none, none, none, none, some 20000, some 20000⟩ : ClientState).requestTimer =
      some 20000 ∧
    (reqResetWarning ∈ [reqResetWarning, tokResetWarning] ↔ true = true) :=
  (claim_C8_amended hdrBothResets20 true stEmpty
      ⟨none, none, none, none, some 20000, some 20000⟩
      [reqResetWarning, tokResetWarning] rfl).1 20000 rfl rfl (by decide)

/-- C9: the estimated token cost enqueued by createChatCompletion is the
constant 1000 whenever the model card supports images, and otherwise exactly
countTokens of the JSON serialization of the request's messages array; the
options, tools, and other request fields contribute nothing to the
estimate. -/
theorem claim_C9 {Msg Temp Tool Fmt : Type} (countTokens : String → Nat)
    (stringifyMessages : List Msg → String) (card : ModelCard)
    (request : ChatCompletionRequest Msg Temp Tool Fmt) :
    (isTruthy card.supportsImages = true →
      createChatCompletionCost countTokens stringifyMessages card request = 1000) ∧
    (isTruthy card.supportsImages = false →
      createChatCompletionCost countTokens stringifyMessages card request =
        countTokens (stringifyMessages request.messages)) ∧
    (∀ request2 : ChatCompletionRequest Msg Temp Tool Fmt,
      request2.messages = request.messages →
      createChatCompletionCost countTokens stringifyMessages card request2 =
        createChatCompletionCost countTokens stringifyMessages card request) := by
  refine ⟨fun ht => ?_, fun hf => ?_, fun request2 hm => ?_⟩
  · simp [createChatCompletionCost, ht]
  · simp [createChatCompletionCost, hf, estimateTokens, buildOpenAIRequest]
  · simp [createChatCompletionCost, estimateTokens, buildOpenAIRequest, hm]

theorem claim_C9_witness :
    createChatCompletionCost (fun s => s.length) (fun (_ : List Nat) => "mm")
        ⟨"ckpt", some true⟩
        (⟨none, "gpt", ([1, 2] : List Nat)⟩ :
          ChatCompletionRequest Nat Unit Unit Unit) = 1000 ∧
    createChatCompletionCost (fun s => s.length) (fun (_ : List Nat) => "mm")
        ⟨"ckpt", none⟩
        (⟨none, "gpt", ([1, 2] : List Nat)⟩ :
          ChatCompletionRequest Nat Unit Unit Unit) = 2 :=
  ⟨(claim_C9 (fun s => s.length) (fun (_ : List Nat) => "mm") ⟨"ckpt", some true⟩
      (⟨none, "gpt", [1, 2]⟩ : ChatCompletionRequest Nat Unit Unit Unit)).1 rfl,
   (claim_C9 (fun s => s.length) (fun (_ : List Nat) => "mm") ⟨"ckpt", none⟩
      (⟨none, "gpt", [1, 2]⟩ : ChatCompletionRequest Nat Unit Unit Unit)).2.1 rfl⟩

lemma unitName_cases (u nm : String) (hu : unitName u = some nm) :
    nm = "seconds" ∨ nm = "minutes" ∨ nm = "hours" ∨ nm = "milliseconds" := by
  unfold unitName at hu
  split_ifs at hu <;> simp_all

lemma unitField_setUnit (nm : String) (acc : DurationUnits) (n : Int)
    (hnm : nm = "seconds" ∨ nm = "minutes" ∨ nm = "hours" ∨ nm = "milliseconds") :
    unitField nm (setUnit acc nm n) = some n := by
  rcases hnm with h | h | h | h <;> subst h <;> simp [unitField, setUnit]

/-- C6: the last occurrence of a unit alone determines that unit's field in
the reduced record (occurrences overwrite, they do not accumulate); in
particular parseDuration of "5s10s" is 10 seconds, not 15. -/
theorem claim_C6 :
    parseDuration "5s10s" = { ms := 10000, valid := true } ∧
    (∀ (ps : List (List Char)) (p ds : List Char) (u nm : String) (n : Int),
      firstMatch p = some (ds, u) →
      jsParseInt (String.mk ds) = some n →
      unitName u = some nm →
      unitField nm (reduceUnits (ps ++ [p])) = some n) := by
  refine ⟨by decide, fun ps p ds u nm n hf hj hu => ?_⟩
  unfold reduceUnits
  rw [List.foldl_append]
  simp only [List.foldl_cons, List.foldl_nil]
  unfold reduceStep
  rw [hf]
  dsimp only
  rw [hj]
  dsimp only
  rw [hu]
  exact unitField_setUnit nm _ n (unitName_cases u nm hu)

theorem claim_C6_witness :
    unitField "seconds" (reduceUnits [['5', 's'], ['1', '0', 's']]) = some 10 :=
  claim_C6.2 [['5', 's']] ['1', '0', 's'] ['1', '0'] "s" "seconds" 10
    (by decide) (by decide) (by decide)

lemma char_digit_bounds (c : Char) (hd : c.isDigit = true) :
    48 ≤ c.toNat ∧ c.toNat ≤ 57 := by
  simp [Char.isDigit] at hd
  exact hd

lemma toLower_of_isDigit (c : Char) (hd : c.isDigit = true) : c.toLower = c := by
  have hv := (char_digit_bounds c hd).2
  simp only [Char.toLower]
  rw [if_neg]
  omega

lemma matchUnit_digit_none (c : Char) (t : List Char) (hd : c.isDigit = true) :
    matchUnit (c :: t) = none := by
  have h1 : c ≠ 'h' := fun h => by subst h; exact absurd hd (by decide)
  have h2 : c ≠ 'm' := fun h => by subst h; exact absurd hd (by decide)
  have h3 : c ≠ 's' := fun h => by subst h; exact absurd hd (by decide)
  simp [matchUnit, h1, h2, h3]

lemma jsIsSpace_of_isDigit (c : Char) (hd : c.isDigit = true) : jsIsSpace c = false := by
  have h1 : c ≠ ' ' := fun h => by subst h; exact absurd hd (by decide)
  have h2 : c ≠ '\t' := fun h => by subst h; exact absurd hd (by decide)
  have h3 : c ≠ '\n' := fun h => by subst h; exact absurd hd (by decide)
  have h4 : c ≠ '\r' := fun h => by subst h; exact absurd hd (by decide)
  simp [jsIsSpace, h1, h2, h3, h4]

lemma jsParseInt_digits (ds : List Char) (hne : ds ≠ [])
    (hdig : ∀ c ∈ ds, c.isDigit = true) :
    jsParseInt (String.mk ds) = some ((digitsToNat ds : Int)) := by
  obtain ⟨c, t, rfl⟩ := List.exists_cons_of_ne_nil hne
  have hc : c.isDigit = true := hdig c (by simp)
  have hminus : c ≠ '-' := fun h => by subst h; exact absurd hc (by decide)
  have hplus : c ≠ '+' := fun h => by subst h; exact absurd hc (by decide)
  have hdrop : (c :: t).dropWhile jsIsSpace = c :: t := by
    rw [List.dropWhile_cons, if_neg]
    simp [jsIsSpace_of_isDigit c hc]
  have htake : (c :: t).takeWhile Char.isDigit = c :: t :=
    List.takeWhile_eq_self_iff.mpr hdig
  unfold jsParseInt
  dsimp only
  rw [hdrop]
  dsimp only
  rw [if_neg hminus, if_neg hplus, htake]
  simp

lemma grabDigits_exact (ds : List Char) : ∀ (n : Nat) (acc rest : List Char),
    ds.length = n → (∀ c ∈ ds, c.isDigit = true) →
    grabDigits n acc (ds ++ rest) = (ds.reverse ++ acc, rest) := by
  induction ds with
  | nil =>
    intro n acc rest hn _
    subst hn
    simp [grabDigits]
  | cons c t IH =>
    intro n acc rest hn hdig
    subst hn
    have hc : c.isDigit = true := hdig c (by simp)
    simp only [List.cons_append, List.length_cons, grabDigits, hc, if_true, List.append_eq]
    rw [IH t.length (c :: acc) rest rfl (fun x hx => hdig x (by simp [hx]))]
    simp [List.reverse_cons, List.append_assoc]

lemma grabDigits_stop (ds : List Char) : ∀ (n : Nat) (acc rest : List Char),
    ds.length ≤ n → (∀ c ∈ ds, c.isDigit = true) →
    (rest = [] ∨ ∃ d t, rest = d :: t ∧ d.isDigit = false) →
    grabDigits n acc (ds ++ rest) = (ds.reverse ++ acc, rest) := by
  induction ds with
  | nil =>
    intro n acc rest _ _ hrest
    cases n with
    | zero => simp [grabDigits]
    | succ m =>
      rcases hrest with rfl | ⟨d, t, rfl, hd⟩
      · simp [grabDigits]
      · simp [grabDigits, hd]
  | cons c t IH =>
    intro n acc rest hn hdig hrest
    cases n with
    | zero => simp at hn
    | succ m =>
      have hc : c.isDigit = true := hdig c (by simp)
      simp only [List.cons_append, grabDigits, hc, if_true, List.append_eq]
      rw [IH m (c :: acc) rest (by simp at hn; omega)
        (fun x hx => hdig x (by simp [hx])) hrest]
      simp [List.reverse_cons, List.append_assoc]

lemma backtrack_found (rest r : List Char) (u : String)
    (hm : matchUnit rest = some (u, r)) (d : Char) (rds : List Char) :
    backtrack (d :: rds) rest = some (((d :: rds).reverse, u), r) := by
  simp [backtrack, hm]

lemma backtrack_digits (rds : List Char) : ∀ (d : Char) (t : List Char),
    (∀ c ∈ rds, c.isDigit = true) → d.isDigit = true →
    backtrack rds (d :: t) = none := by
  induction rds with
  | nil => intro d t _ _; rfl
  | cons e rds' IH =>
    intro d t hall hd
    have hm : matchUnit (d :: t) = none := matchUnit_digit_none d t hd
    simp only [backtrack, hm]
    exact IH e (d :: t) (fun x hx => hall x (by simp [hx])) (hall e (by simp))

lemma matchUnit_head (l r : List Char) (u : String) (hm : matchUnit l = some (u, r)) :
    ∃ c t, l = c :: t ∧ c.isDigit = false := by
  cases l with
  | nil => simp [matchUnit] at hm
  | cons c t =>
    refine ⟨c, t, rfl, ?_⟩
    by_contra hcd
    have hc : c.isDigit = true := by revert hcd; cases c.isDigit <;> simp
    rw [matchUnit_digit_none c t hc] at hm
    exact Option.noConfusion hm

lemma matchUnit_nil_cases (us : List Char) (u : String)
    (hm : matchUnit us = some (u, [])) :
    (us = ['h'] ∧ u = "h") ∨ (us = ['m', 's'] ∧ u = "ms") ∨
    (us = ['m'] ∧ u = "m") ∨ (us = ['s'] ∧ u = "s") := by
  cases us with
  | nil => simp [matchUnit] at hm
  | cons c t =>
    unfold matchUnit at hm
    dsimp only at hm
    split_ifs at hm with h1 h2 h3
    · simp only [Option.some.injEq, Prod.mk.injEq] at hm
      subst h1
      exact Or.inl ⟨by rw [hm.2], hm.1.symm⟩
    · split at hm
      · simp only [Option.some.injEq, Prod.mk.injEq] at hm
        subst h2
        refine Or.inr (Or.inl ⟨?_, hm.1.symm⟩)
        rw [hm.2]
      · simp only [Option.some.injEq, Prod.mk.injEq] at hm
        subst h2
        refine Or.inr (Or.inr (Or.inl ⟨?_, hm.1.symm⟩))
        rw [hm.2]
    · simp only [Option.some.injEq, Prod.mk.injEq] at hm
      subst h3
      exact Or.inr (Or.inr (Or.inr ⟨by rw [hm.2], hm.1.symm⟩))

lemma tryMatchAt_token (ds us : List Char) (u : String) (r : List Char)
    (hne : ds ≠ []) (hlen : ds.length ≤ 5) (hdig : ∀ c ∈ ds, c.isDigit = true)
    (hm : matchUnit us = some (u, r)) :
    tryMatchAt (ds ++ us) = some ((ds, u), r) := by
  have hrest : us = [] ∨ ∃ c t, us = c :: t ∧ c.isDigit = false := by
    obtain ⟨c, t, heq, hcd⟩ := matchUnit_head us r u hm
    exact Or.inr ⟨c, t, heq, hcd⟩
  have hgrab : grabDigits 5 [] (ds ++ us) = (ds.reverse, us) := by
    have := grabDigits_stop ds 5 [] us hlen hdig hrest
    simpa using this
  obtain ⟨d, rds, hrev⟩ : ∃ d rds, ds.reverse = d :: rds := by
    rcases hr : ds.reverse with _ | ⟨d, rds⟩
    · rw [List.reverse_eq_nil_iff] at hr
      exact absurd hr hne
    · exact ⟨d, rds, rfl⟩
  unfold tryMatchAt
  dsimp only
  rw [hgrab]
  dsimp only
  rw [hrev, backtrack_found us r u hm d rds, ← hrev, List.reverse_reverse]

lemma tryMatchAt_longrun (ds rest : List Char)
    (hdig : ∀ c ∈ ds, c.isDigit = true) (hlen : 6 ≤ ds.length) :
    tryMatchAt (ds ++ rest) = none := by
  have hsplit : ds ++ rest = ds.take 5 ++ (ds.drop 5 ++ rest) := by
    rw [← List.append_assoc, List.take_append_drop]
  have hlen5 : (ds.take 5).length = 5 := by
    rw [List.length_take]
    omega
  have hdig5 : ∀ c ∈ ds.take 5, c.isDigit = true :=
    fun c hc => hdig c (List.mem_of_mem_take hc)
  have hgrab : grabDigits 5 [] (ds ++ rest) = ((ds.take 5).reverse, ds.drop 5 ++ rest) := by
    rw [hsplit]
    simpa using grabDigits_exact (ds.take 5) 5 [] (ds.drop 5 ++ rest) hlen5 hdig5
  obtain ⟨d, t, hdt⟩ : ∃ d t, ds.drop 5 = d :: t := by
    rcases hd : ds.drop 5 with _ | ⟨d, t⟩
    · have hl := List.length_drop 5 ds
      rw [hd] at hl
      simp at hl
      omega
    · exact ⟨d, t, rfl⟩
  have hddig : d.isDigit = true := by
    refine hdig d (List.mem_of_mem_drop (n := 5) ?_)
    rw [hdt]
    exact List.mem_cons_self d t
  unfold tryMatchAt
  dsimp only
  rw [hgrab]
  dsimp only
  rw [hdt, List.cons_append]
  exact backtrack_digits ((ds.take 5).reverse) d (t ++ rest)
    (fun c hc => hdig c (List.mem_of_mem_take (List.mem_reverse.mp hc))) hddig

lemma scanGo_nil (f : Nat) : scanGo f [] = [] := by
  cases f <;> rfl

lemma scanGo_token (ds : List Char) : ∀ (us : List Char) (u : String),
    ds ≠ [] → (∀ c ∈ ds, c.isDigit = true) → matchUnit us = some (u, []) →
    scanGo (ds ++ us).length (ds ++ us) = [ds.drop (ds.length - 5) ++ u.data] := by
  induction ds with
  | nil => intro us u hne _ _; exact absurd rfl hne
  | cons c t IH =>
    intro us u _ hdig hm
    by_cases hle : (c :: t).length ≤ 5
    · have htm := tryMatchAt_token (c :: t) us u [] (by simp) hle hdig hm
      rw [List.cons_append] at htm
      have hzero : (c :: t).length - 5 = 0 := Nat.sub_eq_zero_of_le hle
      rw [hzero, List.drop_zero]
      show scanGo ((t ++ us).length + 1) (c :: (t ++ us)) = [(c :: t) ++ u.data]
      simp only [scanGo, htm, scanGo_nil]
    · have h6 : 6 ≤ (c :: t).length := by omega
      have htm := tryMatchAt_longrun (c :: t) us hdig h6
      rw [List.cons_append] at htm
      have ht5 : 5 ≤ t.length := by simp at h6; omega
      have ht_ne : t ≠ [] := by
        intro h
        subst h
        simp at ht5
      have hstep : scanGo ((t ++ us).length + 1) (c :: (t ++ us)) =
          scanGo ((t ++ us).length) (t ++ us) := by
        simp only [scanGo, htm]
      have hdrop : (c :: t).drop ((c :: t).length - 5) = t.drop (t.length - 5) := by
        have : (c :: t).length - 5 = (t.length - 5) + 1 := by
          simp only [List.length_cons]
          omega
        rw [this, List.drop_succ_cons]
      rw [hdrop]
      show scanGo ((t ++ us).length + 1) (c :: (t ++ us)) = [t.drop (t.length - 5) ++ u.data]
      rw [hstep, IH us u ht_ne (fun x hx => hdig x (by simp [hx])) hm]

lemma firstMatch_of_tryMatch (c : Char) (t ds : List Char) (u : String) (r : List Char)
    (htm : tryMatchAt (c :: t) = some ((ds, u), r)) :
    firstMatch (c :: t) = some (ds, u) := by
  simp [firstMatch, htm]

lemma durationOfUnits_single (u : String)
    (hu4 : u = "h" ∨ u = "ms" ∨ u = "m" ∨ u = "s") (n : Int) :
    ∃ nm, unitName u = some nm ∧
      durationOfUnits (setUnit {} nm n) = { ms := unitMillis u * n, valid := true } := by
  rcases hu4 with rfl | rfl | rfl | rfl <;>
    refine ⟨_, rfl, ?_⟩ <;>
    simp [durationOfUnits, setUnit, unitName, unitMillis] <;> ring

lemma parseDuration_token (ds us : List Char) (u : String)
    (hne : ds ≠ []) (hdig : ∀ c ∈ ds, c.isDigit = true)
    (hm : matchUnit us = some (u, []))
    (hlen : ds.length + us.length ≤ 64) :
    parseDuration (String.mk (ds ++ us)) =
      { ms := unitMillis u * (digitsToNat (ds.drop (ds.length - 5)) : Int),
        valid := true } := by
  have hcases := matchUnit_nil_cases us u hm
  have husdata : u.data = us := by
    rcases hcases with ⟨rfl, rfl⟩ | ⟨rfl, rfl⟩ | ⟨rfl, rfl⟩ | ⟨rfl, rfl⟩ <;> rfl
  have hu4 : u = "h" ∨ u = "ms" ∨ u = "m" ∨ u = "s" := by
    rcases hcases with ⟨_, rfl⟩ | ⟨_, rfl⟩ | ⟨_, rfl⟩ | ⟨_, rfl⟩ <;> simp
  have huslower : us.map Char.toLower = us := by
    rcases hcases with ⟨rfl, _⟩ | ⟨rfl, _⟩ | ⟨rfl, _⟩ | ⟨rfl, _⟩ <;> decide
  have hds_lower : ds.map Char.toLower = ds := by
    have h1 : ds.map Char.toLower = ds.map id :=
      List.map_congr_left (fun c hc => toLower_of_isDigit c (hdig c hc))
    rw [h1, List.map_id]
  have hL : (String.mk (ds ++ us)).length = ds.length + us.length := by
    simp [String.length]
  have hds1 : 1 ≤ ds.length := List.length_pos.mpr hne
  unfold parseDuration
  rw [if_neg (show ¬ (String.mk (ds ++ us)).length > 64 by rw [hL]; omega)]
  dsimp only
  rw [List.map_append, huslower, hds_lower]
  unfold scanMatches
  rw [scanGo_token ds us u hne hdig hm]
  simp only [List.isEmpty_cons, Bool.false_eq_true, if_false]
  simp only [reduceUnits, List.foldl_cons, List.foldl_nil]
  set dsx := ds.drop (ds.length - 5) with hdsx
  have hdsx_dig : ∀ c ∈ dsx, c.isDigit = true :=
    fun c hc => hdig c (List.mem_of_mem_drop hc)
  have hdsx_len : dsx.length ≤ 5 := by
    rw [hdsx, List.length_drop]
    omega
  have hdsx_ne : dsx ≠ [] := by
    intro h
    have hl := List.length_drop (ds.length - 5) ds
    rw [← hdsx, h] at hl
    simp at hl
    omega
  have htm := tryMatchAt_token dsx us u [] hdsx_ne hdsx_len hdsx_dig hm
  obtain ⟨c, t, hct⟩ := List.exists_cons_of_ne_nil hdsx_ne
  have hctus : dsx ++ us = c :: (t ++ us) := by rw [hct, List.cons_append]
  rw [hctus] at htm
  have hfm : firstMatch (dsx ++ us) = some (dsx, u) := by
    rw [hctus]
    exact firstMatch_of_tryMatch c (t ++ us) dsx u [] htm
  rw [husdata]
  simp only [reduceStep]
  rw [hfm]
  dsimp only
  rw [jsParseInt_digits dsx hdsx_ne hdsx_dig]
  dsimp only
  obtain ⟨nm, hnm, hdur⟩ := durationOfUnits_single u hu4 ((digitsToNat dsx : Int))
  rw [hnm]
  exact hdur

/-- C5: unit matching is longest-unit-first: for every integer of 1 to 5
digits, parseDuration of that integer followed by "ms" is exactly that many
milliseconds — the ms suffix is never mis-parsed as minutes followed by a
dangling s, and contributes no seconds. -/
theorem claim_C5 (ds : List Char) (hne : ds ≠ []) (hlen : ds.length ≤ 5)
    (hdig : ∀ c ∈ ds, c.isDigit = true) :
    parseDuration (String.mk (ds ++ ['m', 's'])) =
      { ms := (digitsToNat ds : Int), valid := true } := by
  have h := parseDuration_token ds ['m', 's'] "ms" hne hdig (by decide)
    (by simp only [List.length_cons, List.length_nil]; omega)
  rw [Nat.sub_eq_zero_of_le hlen, List.drop_zero] at h
  rw [show unitMillis "ms" = 1 from rfl, one_mul] at h
  exact h

theorem claim_C5_witness :
    parseDuration (String.mk (['1', '2', '3', '4', '5'] ++ ['m', 's'])) =
      { ms := 12345, valid := true } :=
  (claim_C5 ['1', '2', '3', '4', '5'] (by decide) (by decide) (by decide)).trans
    (by decide)

/-- C10: a run of more than 5 digits followed by a unit is not rejected:
the match re-anchors so that exactly the last 5 digits of the run form the
integer; in particular "123456s" parses to 23456 seconds. -/
theorem claim_C10 :
    parseDuration "123456s" = { ms := 23456000, valid := true } ∧
    (∀ (ds us : List Char) (u : String),
      5 < ds.length → (∀ c ∈ ds, c.isDigit = true) →
      matchUnit us = some (u, []) → ds.length + us.length ≤ 64 →
      parseDuration (String.mk (ds ++ us)) =
        { ms := unitMillis u * (digitsToNat (ds.drop (ds.length - 5)) : Int),
          valid := true }) :=
  ⟨by decide, fun ds us u h5 hdig hm hlen =>
    parseDuration_token ds us u (by intro h; subst h; simp at h5) hdig hm hlen⟩

theorem claim_C10_witness :
    parseDuration (String.mk (['1', '2', '3', '4', '5', '6'] ++ ['s'])) =
      { ms := 23456000, valid := true } :=
  (claim_C10.2 ['1', '2', '3', '4', '5', '6'] ['s'] "s" (by decide) (by decide)
    (by decide) (by decide)).trans (by decide)
